import Mathlib

/-!
Shallow embedding of `TPCircularBuffer.h` (MIXhalo/TPCircularBuffer).

The C struct `TPCircularBuffer` holds a pointer to a mirrored memory region,
the region length, the read cursor (`tail`), the write cursor (`head`), the
shared `fillCount`, and the `atomic` mode flag.  `int32_t` fields are modelled
as `Int` (the values relevant to the claims are bounded by `length`, so 32-bit
wraparound never occurs); the C `%` operator on `int` is truncated division
remainder, i.e. `Int.tmod`.  The region is modelled as a total map from
physical byte offsets to byte values; the mirrored mapping makes a store at
logical offset `o` land at physical offset `o % length`.
-/

/-- Model of the C struct `TPCircularBuffer`: region contents, `length`,
`tail` (read cursor), `head` (write cursor), `fillCount` and the `atomic`
flag. -/
structure TPCircularBuffer where
  buffer : Nat → Nat
  length : Int
  tail : Int
  head : Int
  fillCount : Int
  atomic : Bool

/-- Modelled from the spec: the Memory Region Provider establishes a mirrored
mapping in which offset `capacity + k` aliases offset `k`, so a store at
logical offset `start + j` lands at physical offset `(start + j) % len`.
`memWrite len region start data` is the effect of `memcpy` of `data` to
logical offset `start` of a mirrored region of physical size `len`. -/
def memWrite (len : Nat) (region : Nat → Nat) (start : Nat) : List Nat → (Nat → Nat)
  | [] => region
  | b :: rest => memWrite len (fun p => if p = start % len then b else region p) (start + 1) rest

/-- Reading `n` bytes from logical offset `start` of a mirrored region of
physical size `len`. -/
def readBytes (len : Nat) (region : Nat → Nat) (start n : Nat) : List Nat :=
  (List.range n).map fun i => region ((start + i) % len)

/-- `TPCircularBufferTail` (header lines 134-143): loads `fillCount` (the
atomic and plain loads read the same value in this sequential model), reports
`availableBytes = (fillCount <= 0 ? 0 : fillCount)`, and returns `NULL`
(modelled `none`) iff `availableBytes == 0`, else the pointer
`buffer->buffer + buffer->tail` (modelled as the byte offset `tail`). -/
def TPCircularBufferTail (buffer : TPCircularBuffer) : Option Int × Int :=
  let fillCount := buffer.fillCount
  let availableBytes : Int := if fillCount ≤ 0 then 0 else fillCount
  if availableBytes = 0 then (none, availableBytes)
  else (some buffer.tail, availableBytes)

/-- `TPCircularBufferConsume` (header lines 153-161): sets
`tail = (tail + amount) % length` (C truncated `%`, `Int.tmod`), then
subtracts `amount` from `fillCount`, via `atomic_fetch_sub_explicit` when
`atomic` and a plain `-=` otherwise. -/
def TPCircularBufferConsume (buffer : TPCircularBuffer) (amount : Int) : TPCircularBuffer :=
  let buffer := { buffer with tail := Int.tmod (buffer.tail + amount) buffer.length }
  if buffer.atomic then
    { buffer with fillCount := buffer.fillCount - amount }
  else
    { buffer with fillCount := buffer.fillCount - amount }

/-- `TPCircularBufferHead` (header lines 176-192): loads `fillCount`; if
`fillCount <= 0` reports `availableBytes = length`, `discardBytes = -fillCount`,
otherwise `availableBytes = length - fillCount`, `discardBytes = 0`; returns
`NULL` (`none`) iff `availableBytes == 0`, else the offset `head`. -/
def TPCircularBufferHead (buffer : TPCircularBuffer) : Option Int × Int × Int :=
  let fillCount := buffer.fillCount
  let availableBytes : Int := if fillCount ≤ 0 then buffer.length else buffer.length - fillCount
  let discardBytes : Int := if fillCount ≤ 0 then -fillCount else 0
  if availableBytes = 0 then (none, availableBytes, discardBytes)
  else (some buffer.head, availableBytes, discardBytes)

/-- `TPCircularBufferProduce` (header lines 203-216): sets
`head = (head + amount) % length` (C truncated `%`), adds `amount` to
`fillCount` (atomically iff `atomic`), and returns the fill count observed
immediately before the addition. -/
def TPCircularBufferProduce (buffer : TPCircularBuffer) (amount : Int) : TPCircularBuffer × Int :=
  let buffer := { buffer with head := Int.tmod (buffer.head + amount) buffer.length }
  if buffer.atomic then
    ({ buffer with fillCount := buffer.fillCount + amount }, buffer.fillCount)
  else
    let previousFillCount := buffer.fillCount
    ({ buffer with fillCount := buffer.fillCount + amount }, previousFillCount)

/-- The condition under which the `assert(previousFillCount + amount <= buffer->length)`
in `TPCircularBufferProduce` (header line 213) fires: the negation of the
asserted inequality, with `previousFillCount` the value the call returns and
`length` read from the post-call state (the call never changes `length`). -/
def produceAssertionFires (buffer : TPCircularBuffer) (amount : Int) : Prop :=
  (TPCircularBufferProduce buffer amount).1.length <
    (TPCircularBufferProduce buffer amount).2 + amount

/-- `TPCircularBufferProduceBytes` (header lines 228-237): calls
`TPCircularBufferHead`; if `space < len - discard` returns `false` with the
buffer untouched; otherwise `memcpy(ptr + discard, src + discard, len - discard)`
— i.e. bytes `src[discard .. len-1]` are stored at logical offsets
`head + discard ..` of the mirrored region — then calls
`TPCircularBufferProduce(buffer, len)` and returns `true`. -/
def TPCircularBufferProduceBytes (buffer : TPCircularBuffer) (src : List Nat) (len : Int) :
    TPCircularBuffer × Bool :=
  let space := (TPCircularBufferHead buffer).2.1
  let discard := (TPCircularBufferHead buffer).2.2
  if space < len - discard then (buffer, false)
  else
    let data := (src.drop discard.toNat).take (len - discard).toNat
    let buffer := { buffer with
      buffer := memWrite buffer.length.toNat buffer.buffer (buffer.head + discard).toNat data }
    ((TPCircularBufferProduce buffer len).1, true)

/-- `TPCircularBufferConsumeNoBarrier` (header lines 244-249): like consume
but always uses the plain unsynchronized update regardless of `atomic`. -/
def TPCircularBufferConsumeNoBarrier (buffer : TPCircularBuffer) (amount : Int) :
    TPCircularBuffer :=
  { buffer with tail := Int.tmod (buffer.tail + amount) buffer.length,
                fillCount := buffer.fillCount - amount }

/-- `TPCircularBufferProduceNoBarrier` (header lines 254-260): like produce
but always uses the plain unsynchronized update regardless of `atomic` (and
returns nothing). -/
def TPCircularBufferProduceNoBarrier (buffer : TPCircularBuffer) (amount : Int) :
    TPCircularBuffer :=
  { buffer with head := Int.tmod (buffer.head + amount) buffer.length,
                fillCount := buffer.fillCount + amount }

/-- Modelled from the spec: `TPCircularBufferClear` is declared in the header
but defined in `TPCircularBuffer.c`, which is not among the sources; per the
spec it resets `readCursor = writeCursor = fillCount = 0` without touching the
region.  A freshly initialized buffer has the same cursor/fill state. -/
def TPCircularBufferClear (buffer : TPCircularBuffer) : TPCircularBuffer :=
  { buffer with tail := 0, head := 0, fillCount := 0 }

/-- Stateful transcription of `TPCircularBufferTail`: the C function takes a
`const TPCircularBuffer *` and its body performs only loads (including the
atomic load of `fillCount`) and writes to the caller's out-parameter, never an
assignment to a struct field or region byte, so the state it leaves behind is
the input state. -/
def TPCircularBufferTailS (buffer : TPCircularBuffer) :
    TPCircularBuffer × Option Int × Int :=
  (buffer, TPCircularBufferTail buffer)

/-- Stateful transcription of `TPCircularBufferHead`: like the tail accessor,
the C function takes a `const` pointer and performs only loads and
out-parameter writes, so the resulting state is the input state. -/
def TPCircularBufferHeadS (buffer : TPCircularBuffer) :
    TPCircularBuffer × Option Int × Int × Int :=
  (buffer, TPCircularBufferHead buffer)

/-- Quiescent well-formedness of a buffer state, per the spec's data model:
positive capacity, `0 ≤ fillCount ≤ capacity`, both cursors in
`[0, capacity)`, and `writeCursor = (readCursor + fillCount) mod capacity`. -/
def Quiescent (b : TPCircularBuffer) : Prop :=
  0 < b.length ∧ 0 ≤ b.fillCount ∧ b.fillCount ≤ b.length ∧
  0 ≤ b.tail ∧ b.tail < b.length ∧ 0 ≤ b.head ∧ b.head < b.length ∧
  b.head = (b.tail + b.fillCount) % b.length

instance (b : TPCircularBuffer) : Decidable (Quiescent b) := by
  unfold Quiescent; infer_instance

instance (b : TPCircularBuffer) (amount : Int) : Decidable (produceAssertionFires b amount) := by
  unfold produceAssertionFires; infer_instance

/-- Sequential reachability by consume/produce calls whose (nonnegative)
amounts respect the stated preconditions: each consume amount is at most the
`availableBytes` reported by `TPCircularBufferTail` at the current state and
each produce amount at most the `availableBytes` reported by
`TPCircularBufferHead`. -/
inductive Reach : TPCircularBuffer → TPCircularBuffer → Prop where
  | refl (b : TPCircularBuffer) : Reach b b
  | consume (b0 b : TPCircularBuffer) (amount : Int) :
      Reach b0 b → 0 ≤ amount → amount ≤ (TPCircularBufferTail b).2 →
      Reach b0 (TPCircularBufferConsume b amount)
  | produce (b0 b : TPCircularBuffer) (amount : Int) :
      Reach b0 b → 0 ≤ amount → amount ≤ (TPCircularBufferHead b).2.1 →
      Reach b0 ((TPCircularBufferProduce b amount).1)

/-- One produce or consume call with its amount, for replaying a sequence of
operations. -/
inductive BufOp where
  | produceOp (amount : Int)
  | consumeOp (amount : Int)

/-- Apply one operation using the current (atomic-mode-respecting) calls. -/
def applyOp (b : TPCircularBuffer) : BufOp → TPCircularBuffer
  | .produceOp a => (TPCircularBufferProduce b a).1
  | .consumeOp a => TPCircularBufferConsume b a

/-- Apply one operation using the deprecated no-barrier calls. -/
def applyOpNoBarrier (b : TPCircularBuffer) : BufOp → TPCircularBuffer
  | .produceOp a => TPCircularBufferProduceNoBarrier b a
  | .consumeOp a => TPCircularBufferConsumeNoBarrier b a

/-- Run a sequence of operations with the atomic-mode-respecting calls. -/
def runOps (b : TPCircularBuffer) (ops : List BufOp) : TPCircularBuffer :=
  ops.foldl applyOp b

/-- Run a sequence of operations with the deprecated no-barrier calls. -/
def runOpsNoBarrier (b : TPCircularBuffer) (ops : List BufOp) : TPCircularBuffer :=
  ops.foldl applyOpNoBarrier b

/-- The atomic and plain branches of consume perform the same state change,
so a consume call equals the shared record update. -/
theorem consume_eq (b : TPCircularBuffer) (a : Int) :
    TPCircularBufferConsume b a =
      { b with tail := Int.tmod (b.tail + a) b.length, fillCount := b.fillCount - a } := by
  simp only [TPCircularBufferConsume]
  split <;> rfl

/-- The atomic and plain branches of produce perform the same state change
and return the same previous fill count. -/
theorem produce_eq (b : TPCircularBuffer) (a : Int) :
    TPCircularBufferProduce b a =
      ({ b with head := Int.tmod (b.head + a) b.length, fillCount := b.fillCount + a },
        b.fillCount) := by
  simp only [TPCircularBufferProduce]
  split <;> rfl

/-- A mirrored-region write leaves every physical offset it does not target
unchanged. -/
theorem memWrite_ne (len : Nat) (region : Nat → Nat) (start : Nat) (data : List Nat)
    (p : Nat) (h : ∀ j, j < data.length → (start + j) % len ≠ p) :
    memWrite len region start data p = region p := by
  induction data generalizing region start with
  | nil => rfl
  | cons c rest ih =>
    simp only [memWrite]
    rw [ih]
    · have h0 : (start + 0) % len ≠ p := h 0 (by simp)
      rw [Nat.add_zero] at h0
      simp [Ne.symm h0]
    · intro j hj
      have := h (j + 1) (by simpa using Nat.succ_lt_succ hj)
      simpa [Nat.add_assoc, Nat.add_comm 1 j] using this

/-- Reading back byte `i` of a mirrored-region write of at most `len` bytes
returns byte `i` of the written data. -/
theorem memWrite_get (len : Nat) (region : Nat → Nat) (start : Nat) (data : List Nat)
    (hdata : data.length ≤ len) (i : Nat) (hi : i < data.length) :
    memWrite len region start data ((start + i) % len) = data.getD i 0 := by
  induction data generalizing region start i with
  | nil => exact absurd hi (Nat.not_lt_zero i)
  | cons c rest ih =>
    cases i with
    | zero =>
      simp only [memWrite, Nat.add_zero, List.getD, List.getElem?_cons_zero, Option.getD_some]
      rw [memWrite_ne]
      · simp
      · intro j hj heq
        have hd : len ∣ (1 + j) := by
          have hmod : (start + (1 + j)) % len = (start + 0) % len := by
            rw [Nat.add_zero]
            calc (start + (1 + j)) % len = (start + 1 + j) % len := by rw [Nat.add_assoc]
              _ = start % len := heq
          have : (1 + j) ≡ 0 [MOD len] := Nat.ModEq.add_left_cancel' start hmod
          exact (Nat.modEq_zero_iff_dvd).mp this
        have hlt : 1 + j < len := by
          have : rest.length + 1 ≤ len := by simpa using hdata
          omega
        have := Nat.le_of_dvd (by omega) hd
        omega
    | succ i' =>
      simp only [memWrite]
      have harr : (start + (i' + 1)) % len = ((start + 1) + i') % len := by
        rw [Nat.add_assoc, Nat.add_comm 1 i', ← Nat.add_assoc]
      rw [harr, ih _ _ (by simpa using Nat.le_of_succ_le hdata) i' (by simpa using hi)]
      simp [List.getD]

/-- Round trip through the mirrored region: reading back exactly the bytes
just written returns them unchanged, provided they fit in the region. -/
theorem readBytes_memWrite (len : Nat) (region : Nat → Nat) (start : Nat) (data : List Nat)
    (hdata : data.length ≤ len) :
    readBytes len (memWrite len region start data) start data.length = data := by
  apply List.ext_getElem
  · simp [readBytes]
  · intro i h1 h2
    simp only [readBytes, List.getElem_map, List.getElem_range]
    rw [memWrite_get len region start data hdata i h2]
    exact List.getD_eq_getElem data 0 h2

/-- The available-bytes output of the tail accessor, as a function of the
loaded fill count. -/
theorem tail_avail (b : TPCircularBuffer) :
    (TPCircularBufferTail b).2 = if b.fillCount ≤ 0 then 0 else b.fillCount := by
  simp only [TPCircularBufferTail]
  by_cases h : b.fillCount ≤ 0
  · simp [h]
  · have hne : b.fillCount ≠ 0 := by omega
    simp [h, hne]

/-- The pointer output of the tail accessor, as a function of the loaded fill
count. -/
theorem tail_ptr (b : TPCircularBuffer) :
    (TPCircularBufferTail b).1 = if b.fillCount ≤ 0 then none else some b.tail := by
  simp only [TPCircularBufferTail]
  by_cases h : b.fillCount ≤ 0
  · simp [h]
  · have hne : b.fillCount ≠ 0 := by omega
    simp [h, hne]

/-- The available-bytes output of the head accessor, as a function of the
loaded fill count. -/
theorem head_avail (b : TPCircularBuffer) :
    (TPCircularBufferHead b).2.1 =
      if b.fillCount ≤ 0 then b.length else b.length - b.fillCount := by
  simp only [TPCircularBufferHead]
  by_cases h : b.fillCount ≤ 0
  · by_cases h0 : b.length = 0 <;> simp [h, h0]
  · by_cases h0 : b.length - b.fillCount = 0 <;> simp [h, h0]

/-- The discard-bytes output of the head accessor, as a function of the loaded
fill count. -/
theorem head_discard (b : TPCircularBuffer) :
    (TPCircularBufferHead b).2.2 = if b.fillCount ≤ 0 then -b.fillCount else 0 := by
  simp only [TPCircularBufferHead]
  by_cases h : b.fillCount ≤ 0
  · by_cases h0 : b.length = 0 <;> simp [h, h0]
  · by_cases h0 : b.length - b.fillCount = 0 <;> simp [h, h0]

/-- The head accessor returns no pointer exactly when it reports zero
available bytes. -/
theorem head_none_iff (b : TPCircularBuffer) :
    (TPCircularBufferHead b).1 = none ↔ (TPCircularBufferHead b).2.1 = 0 := by
  simp only [TPCircularBufferHead]
  by_cases h : b.fillCount ≤ 0
  · by_cases h0 : b.length = 0 <;> simp [h, h0]
  · by_cases h0 : b.length - b.fillCount = 0 <;> simp [h, h0]

/-- Consume preserves the quiescent invariant when its amount respects the
bound last reported by the tail accessor. -/
theorem quiescent_consume (b : TPCircularBuffer) (amount : Int) (hq : Quiescent b)
    (h0 : 0 ≤ amount) (h : amount ≤ (TPCircularBufferTail b).2) :
    Quiescent (TPCircularBufferConsume b amount) := by
  obtain ⟨hl, hf0, hfl, ht0, htl, hh0, hhl, hinv⟩ := hq
  rw [tail_avail] at h
  have hamt : amount ≤ b.fillCount := by split_ifs at h <;> omega
  rw [consume_eq]
  have htm : Int.tmod (b.tail + amount) b.length = (b.tail + amount) % b.length :=
    Int.tmod_eq_emod (by omega) (by omega)
  refine ⟨hl, by show (0:Int) ≤ b.fillCount - amount; omega,
    by show b.fillCount - amount ≤ b.length; omega, ?_, ?_, hh0, hhl, ?_⟩
  · show (0:Int) ≤ Int.tmod (b.tail + amount) b.length
    rw [htm]; exact Int.emod_nonneg _ (by omega)
  · show Int.tmod (b.tail + amount) b.length < b.length
    rw [htm]; exact Int.emod_lt_of_pos _ hl
  · show b.head = (Int.tmod (b.tail + amount) b.length + (b.fillCount - amount)) % b.length
    rw [htm, Int.emod_add_emod]
    have harith : b.tail + amount + (b.fillCount - amount) = b.tail + b.fillCount := by ring
    rw [harith]; exact hinv

/-- Produce preserves the quiescent invariant when its amount respects the
bound last reported by the head accessor. -/
theorem quiescent_produce (b : TPCircularBuffer) (amount : Int) (hq : Quiescent b)
    (h0 : 0 ≤ amount) (h : amount ≤ (TPCircularBufferHead b).2.1) :
    Quiescent ((TPCircularBufferProduce b amount).1) := by
  obtain ⟨hl, hf0, hfl, ht0, htl, hh0, hhl, hinv⟩ := hq
  rw [head_avail] at h
  have hamt : b.fillCount + amount ≤ b.length := by split_ifs at h <;> omega
  rw [produce_eq]
  have htm : Int.tmod (b.head + amount) b.length = (b.head + amount) % b.length :=
    Int.tmod_eq_emod (by omega) (by omega)
  refine ⟨hl, by show (0:Int) ≤ b.fillCount + amount; omega,
    by show b.fillCount + amount ≤ b.length; omega, ht0, htl, ?_, ?_, ?_⟩
  · show (0:Int) ≤ Int.tmod (b.head + amount) b.length
    rw [htm]; exact Int.emod_nonneg _ (by omega)
  · show Int.tmod (b.head + amount) b.length < b.length
    rw [htm]; exact Int.emod_lt_of_pos _ hl
  · show Int.tmod (b.head + amount) b.length = (b.tail + (b.fillCount + amount)) % b.length
    rw [htm, hinv, Int.emod_add_emod]
    have harith : b.tail + b.fillCount + amount = b.tail + (b.fillCount + amount) := by ring
    rw [harith]

/-- Every state reachable by precondition-respecting calls from a quiescent
state is quiescent. -/
theorem reach_quiescent (b0 b : TPCircularBuffer) (hq0 : Quiescent b0)
    (hr : Reach b0 b) : Quiescent b := by
  induction hr with
  | refl => exact hq0
  | consume b' amount _ h0 hle ih => exact quiescent_consume b' amount ih h0 hle
  | produce b' amount _ h0 hle ih => exact quiescent_produce b' amount ih h0 hle

/-- C1: for every buffer state reachable from a freshly initialized or cleared
buffer by sequential consume/produce calls whose amounts respect the bounds
last reported by the access operations, the quiescent invariant holds:
`0 ≤ fillCount ≤ capacity` and
`writeCursor = (readCursor + fillCount) mod capacity`. -/
theorem reach_quiescent_invariant (b0 b : TPCircularBuffer)
    (hclear : b0 = TPCircularBufferClear b0) (hlen : 0 < b0.length)
    (hr : Reach b0 b) :
    0 ≤ b.fillCount ∧ b.fillCount ≤ b.length ∧
      b.head = (b.tail + b.fillCount) % b.length := by
  have ht : b0.tail = 0 := by rw [hclear]; rfl
  have hh : b0.head = 0 := by rw [hclear]; rfl
  have hf : b0.fillCount = 0 := by rw [hclear]; rfl
  have hq0 : Quiescent b0 := by
    refine ⟨hlen, by omega, by omega, by omega, by omega, by omega, by omega, ?_⟩
    rw [ht, hh, hf]
    simp
  have hq := reach_quiescent b0 b hq0 hr
  exact ⟨hq.2.1, hq.2.2.1, hq.2.2.2.2.2.2.2⟩

/-- Cleared buffer of capacity 4 with a zeroed region, in atomic mode. -/
def bufA : TPCircularBuffer := ⟨fun _ => 0, 4, 0, 0, 0, true⟩

/-- Witness for C1: the cleared 4-byte buffer itself is reachable and
satisfies the invariant. -/
theorem reach_quiescent_invariant_witness :
    bufA = TPCircularBufferClear bufA ∧ (0:Int) < bufA.length ∧
      (0 ≤ bufA.fillCount ∧ bufA.fillCount ≤ bufA.length ∧
        bufA.head = (bufA.tail + bufA.fillCount) % bufA.length) :=
  ⟨rfl, by decide,
    reach_quiescent_invariant bufA bufA rfl (by decide) (Reach.refl bufA)⟩

/-- C5: the head accessor reports `availableBytes = length` and
`discardBytes = -fillCount` when the loaded `fillCount ≤ 0`, reports
`availableBytes = length - fillCount` and `discardBytes = 0` when
`fillCount > 0`, and returns no pointer exactly when `availableBytes = 0`. -/
theorem head_access_spec (b : TPCircularBuffer) :
    (TPCircularBufferHead b).2.1 =
      (if b.fillCount ≤ 0 then b.length else b.length - b.fillCount) ∧
    (TPCircularBufferHead b).2.2 = (if b.fillCount ≤ 0 then -b.fillCount else 0) ∧
    ((TPCircularBufferHead b).1 = none ↔ (TPCircularBufferHead b).2.1 = 0) :=
  ⟨head_avail b, head_discard b, head_none_iff b⟩

/-- C6: the tail accessor reports zero available bytes and no pointer whenever
the loaded `fillCount ≤ 0`, and otherwise reports exactly `fillCount`
available bytes with a pointer to the data at `tail`. -/
theorem tail_access_spec (b : TPCircularBuffer) :
    (TPCircularBufferTail b).2 = (if b.fillCount ≤ 0 then 0 else b.fillCount) ∧
    (TPCircularBufferTail b).1 = (if b.fillCount ≤ 0 then none else some b.tail) :=
  ⟨tail_avail b, tail_ptr b⟩

/-- C7: produce sets `head = (head + amount) mod length`, adds `amount` to
`fillCount`, leaves `tail`, `length`, the region, and the atomic flag
unchanged, and returns the fill count observed before the update. -/
theorem produce_spec (b : TPCircularBuffer) (amount : Int)
    (hh : 0 ≤ b.head) (ha : 0 ≤ amount) (hl : 0 < b.length) :
    (TPCircularBufferProduce b amount).1.head = (b.head + amount) % b.length ∧
    (TPCircularBufferProduce b amount).1.fillCount = b.fillCount + amount ∧
    (TPCircularBufferProduce b amount).1.tail = b.tail ∧
    (TPCircularBufferProduce b amount).1.length = b.length ∧
    (TPCircularBufferProduce b amount).1.buffer = b.buffer ∧
    (TPCircularBufferProduce b amount).1.atomic = b.atomic ∧
    (TPCircularBufferProduce b amount).2 = b.fillCount := by
  rw [produce_eq]
  exact ⟨Int.tmod_eq_emod (by omega) (by omega), rfl, rfl, rfl, rfl, rfl, rfl⟩

/-- Witness for C7: producing 3 bytes into the cleared 4-byte buffer. -/
theorem produce_spec_witness :
    (0:Int) ≤ bufA.head ∧ (0:Int) ≤ (3:Int) ∧ (0:Int) < bufA.length ∧
      ((TPCircularBufferProduce bufA 3).1.head = (bufA.head + 3) % bufA.length ∧
       (TPCircularBufferProduce bufA 3).1.fillCount = bufA.fillCount + 3 ∧
       (TPCircularBufferProduce bufA 3).1.tail = bufA.tail ∧
       (TPCircularBufferProduce bufA 3).1.length = bufA.length ∧
       (TPCircularBufferProduce bufA 3).1.buffer = bufA.buffer ∧
       (TPCircularBufferProduce bufA 3).1.atomic = bufA.atomic ∧
       (TPCircularBufferProduce bufA 3).2 = bufA.fillCount) :=
  ⟨by decide, by decide, by decide, produce_spec bufA 3 (by decide) (by decide) (by decide)⟩

/-- C8: the fatal assertion in produce fires exactly when the pre-update fill
count plus the amount exceeds `length`, and never fires when the amount is at
most the available bytes last reported by the head accessor. -/
theorem produce_assert_spec (b : TPCircularBuffer) (amount : Int) :
    (produceAssertionFires b amount ↔ b.length < b.fillCount + amount) ∧
    (amount ≤ (TPCircularBufferHead b).2.1 → ¬ produceAssertionFires b amount) := by
  have hchar : produceAssertionFires b amount ↔ b.length < b.fillCount + amount := by
    unfold produceAssertionFires
    rw [produce_eq]
  refine ⟨hchar, fun h => ?_⟩
  rw [hchar]
  rw [head_avail] at h
  split_ifs at h <;> omega

/-- Witness for C8: producing 2 bytes into the cleared 4-byte buffer respects
the reported bound and the assertion does not fire. -/
theorem produce_assert_spec_witness :
    (2:Int) ≤ (TPCircularBufferHead bufA).2.1 ∧ ¬ produceAssertionFires bufA 2 :=
  ⟨by decide, (produce_assert_spec bufA 2).2 (by decide)⟩

/-- C10: the access operations modify no field of the buffer and no region
byte; repeating one yields the same outputs, and interposing one leaves any
subsequent operation's behavior unchanged. -/
theorem access_ops_pure (b : TPCircularBuffer) :
    (TPCircularBufferTailS b).1 = b ∧ (TPCircularBufferHeadS b).1 = b ∧
    (TPCircularBufferTailS (TPCircularBufferTailS b).1).2 = (TPCircularBufferTailS b).2 ∧
    (TPCircularBufferHeadS (TPCircularBufferHeadS b).1).2 = (TPCircularBufferHeadS b).2 ∧
    (∀ a, TPCircularBufferConsume (TPCircularBufferTailS b).1 a = TPCircularBufferConsume b a) ∧
    (∀ a, TPCircularBufferProduce (TPCircularBufferHeadS b).1 a = TPCircularBufferProduce b a) :=
  ⟨rfl, rfl, rfl, rfl, fun _ => rfl, fun _ => rfl⟩

/-- C3: when the head accessor reports `availableBytes < len - discardBytes`,
the bulk write helper returns failure and the whole buffer state — fill count,
cursors, and region contents — is the input state unchanged. -/
theorem produceBytes_fail_unchanged (b : TPCircularBuffer) (src : List Nat) (len : Int)
    (h : (TPCircularBufferHead b).2.1 < len - (TPCircularBufferHead b).2.2) :
    TPCircularBufferProduceBytes b src len = (b, false) := by
  simp only [TPCircularBufferProduceBytes]
  rw [if_pos h]

/-- Full 4-byte buffer (fill count equals capacity) with a zeroed region. -/
def bufFull : TPCircularBuffer := ⟨fun _ => 0, 4, 0, 0, 4, true⟩

/-- Witness for C3: a 5-byte write into a full 4-byte buffer fails and leaves
the state unchanged. -/
theorem produceBytes_fail_unchanged_witness :
    (TPCircularBufferHead bufFull).2.1 < 5 - (TPCircularBufferHead bufFull).2.2 ∧
      TPCircularBufferProduceBytes bufFull [] 5 = (bufFull, false) :=
  ⟨by decide, produceBytes_fail_unchanged bufFull [] 5 (by decide)⟩

/-- In this sequential model one mode-respecting call performs the same state
change as the corresponding deprecated no-barrier call. -/
theorem applyOp_eq_noBarrier (b : TPCircularBuffer) (op : BufOp) :
    applyOp b op = applyOpNoBarrier b op := by
  cases op with
  | produceOp a =>
    show (TPCircularBufferProduce b a).1 = TPCircularBufferProduceNoBarrier b a
    rw [produce_eq]
    rfl
  | consumeOp a =>
    show TPCircularBufferConsume b a = TPCircularBufferConsumeNoBarrier b a
    rw [consume_eq]
    rfl

/-- Running a sequence with the mode-respecting calls equals running it with
the deprecated no-barrier calls. -/
theorem runOps_eq_noBarrier (ops : List BufOp) (b : TPCircularBuffer) :
    runOps b ops = runOpsNoBarrier b ops := by
  induction ops generalizing b with
  | nil => rfl
  | cons op rest ih =>
    show runOps (applyOp b op) rest = runOpsNoBarrier (applyOpNoBarrier b op) rest
    rw [applyOp_eq_noBarrier]
    exact ih _

/-- A no-barrier call only reads the cursor, length and fill fields, so it
commutes with toggling the atomic flag. -/
theorem applyOpNoBarrier_atomic (b : TPCircularBuffer) (x : Bool) (op : BufOp) :
    applyOpNoBarrier { b with atomic := x } op =
      { applyOpNoBarrier b op with atomic := x } := by
  cases op <;> rfl

/-- Running a sequence of no-barrier calls commutes with toggling the atomic
flag. -/
theorem runOpsNoBarrier_atomic (ops : List BufOp) (b : TPCircularBuffer) (x : Bool) :
    runOpsNoBarrier { b with atomic := x } ops =
      { runOpsNoBarrier b ops with atomic := x } := by
  induction ops generalizing b with
  | nil => rfl
  | cons op rest ih =>
    show runOpsNoBarrier (applyOpNoBarrier { b with atomic := x } op) rest =
      { runOpsNoBarrier (applyOpNoBarrier b op) rest with atomic := x }
    rw [applyOpNoBarrier_atomic]
    exact ih _

/-- C9: for every starting state and sequence of produce/consume amounts, the
resulting `fillCount`, `tail` and `head` are identical whether the sequence is
run with the atomic flag set, with it unset, or with the deprecated
no-barrier variants. -/
theorem atomic_mode_equivalence (b : TPCircularBuffer) (ops : List BufOp) :
    (runOps { b with atomic := true } ops).fillCount
        = (runOps { b with atomic := false } ops).fillCount ∧
    (runOps { b with atomic := true } ops).tail
        = (runOps { b with atomic := false } ops).tail ∧
    (runOps { b with atomic := true } ops).head
        = (runOps { b with atomic := false } ops).head ∧
    (runOpsNoBarrier b ops).fillCount = (runOps b ops).fillCount ∧
    (runOpsNoBarrier b ops).tail = (runOps b ops).tail ∧
    (runOpsNoBarrier b ops).head = (runOps b ops).head := by
  have e1 := runOps_eq_noBarrier ops { b with atomic := true }
  have e2 := runOps_eq_noBarrier ops { b with atomic := false }
  have e3 := runOps_eq_noBarrier ops b
  have h1 := runOpsNoBarrier_atomic ops b true
  have h2 := runOpsNoBarrier_atomic ops b false
  rw [e1, e2, e3, h1, h2]
  exact ⟨rfl, rfl, rfl, rfl, rfl, rfl⟩

/-- Computation of the bulk write helper on its success path: the region takes
the `memcpy` of `src[discard .. len-1]` at logical offset `head + discard`,
then produce publishes `len`. -/
theorem produceBytes_success_eq (b : TPCircularBuffer) (src : List Nat) (len : Int)
    (hsp : ¬ ((TPCircularBufferHead b).2.1 < len - (TPCircularBufferHead b).2.2)) :
    TPCircularBufferProduceBytes b src len =
      ((TPCircularBufferProduce
        { b with buffer := (memWrite b.length.toNat b.buffer
            (b.head + (TPCircularBufferHead b).2.2).toNat
            ((src.drop (TPCircularBufferHead b).2.2.toNat).take
              (len - (TPCircularBufferHead b).2.2).toNat)) } len).1, true) := by
  simp only [TPCircularBufferProduceBytes]
  rw [if_neg hsp]

/-- The discard-bytes output of the head accessor is never negative. -/
theorem head_discard_nonneg (b : TPCircularBuffer) : 0 ≤ (TPCircularBufferHead b).2.2 := by
  rw [head_discard]
  split_ifs <;> omega

/-- The available-bytes output of the head accessor never exceeds `length`. -/
theorem head_avail_le_length (b : TPCircularBuffer) :
    (TPCircularBufferHead b).2.1 ≤ b.length := by
  rw [head_avail]
  split_ifs <;> omega

/-- C4: when the head accessor reports space of at least `len - discardBytes`,
the bulk write helper returns success, copies exactly the `len - discardBytes`
bytes of `src` from offset `discardBytes` to the mirrored region starting
`discardBytes` past the reported write position leaving all other region bytes
unchanged, and publishes the full `len` via produce (advancing `head` by `len`
modulo `length` and adding `len` to `fillCount`). -/
theorem produceBytes_success_spec (b : TPCircularBuffer) (src : List Nat) (len : Int)
    (hl : 0 < b.length) (hlen0 : 0 ≤ len)
    (hsrc : src.length = len.toNat)
    (hsp : ¬ ((TPCircularBufferHead b).2.1 < len - (TPCircularBufferHead b).2.2)) :
    (TPCircularBufferProduceBytes b src len).2 = true ∧
    (TPCircularBufferProduceBytes b src len).1.fillCount = b.fillCount + len ∧
    (TPCircularBufferProduceBytes b src len).1.head = Int.tmod (b.head + len) b.length ∧
    (TPCircularBufferProduceBytes b src len).1.tail = b.tail ∧
    (TPCircularBufferProduceBytes b src len).1.length = b.length ∧
    (∀ i : Nat, i < (len - (TPCircularBufferHead b).2.2).toNat →
      (TPCircularBufferProduceBytes b src len).1.buffer
          (((b.head + (TPCircularBufferHead b).2.2).toNat + i) % b.length.toNat)
        = src.getD ((TPCircularBufferHead b).2.2.toNat + i) 0) ∧
    (∀ p : Nat, (∀ i : Nat, i < (len - (TPCircularBufferHead b).2.2).toNat →
        ((b.head + (TPCircularBufferHead b).2.2).toNat + i) % b.length.toNat ≠ p) →
      (TPCircularBufferProduceBytes b src len).1.buffer p = b.buffer p) := by
  have hd0 : 0 ≤ (TPCircularBufferHead b).2.2 := head_discard_nonneg b
  have hsple : (TPCircularBufferHead b).2.1 ≤ b.length := head_avail_le_length b
  have hsp' : len - (TPCircularBufferHead b).2.2 ≤ (TPCircularBufferHead b).2.1 :=
    le_of_not_lt hsp
  rw [produceBytes_success_eq b src len hsp, produce_eq]
  have hdlen : ((src.drop (TPCircularBufferHead b).2.2.toNat).take
      (len - (TPCircularBufferHead b).2.2).toNat).length
      = (len - (TPCircularBufferHead b).2.2).toNat := by
    simp only [List.length_take, List.length_drop]
    omega
  refine ⟨rfl, rfl, rfl, rfl, rfl, ?_, ?_⟩
  · intro i hi
    show memWrite b.length.toNat b.buffer (b.head + (TPCircularBufferHead b).2.2).toNat
        ((src.drop (TPCircularBufferHead b).2.2.toNat).take
          (len - (TPCircularBufferHead b).2.2).toNat)
        (((b.head + (TPCircularBufferHead b).2.2).toNat + i) % b.length.toNat)
      = src.getD ((TPCircularBufferHead b).2.2.toNat + i) 0
    rw [memWrite_get _ _ _ _ (by omega) i (by omega)]
    have hi2 : i < ((src.drop (TPCircularBufferHead b).2.2.toNat).take
        (len - (TPCircularBufferHead b).2.2).toNat).length := by omega
    have hi3 : (TPCircularBufferHead b).2.2.toNat + i < src.length := by omega
    rw [List.getD_eq_getElem _ 0 hi2, List.getD_eq_getElem _ 0 hi3]
    simp [List.getElem_take, List.getElem_drop]
  · intro p hp
    show memWrite b.length.toNat b.buffer (b.head + (TPCircularBufferHead b).2.2).toNat
        ((src.drop (TPCircularBufferHead b).2.2.toNat).take
          (len - (TPCircularBufferHead b).2.2).toNat) p
      = b.buffer p
    exact memWrite_ne _ _ _ _ p (fun j hj => hp j (by omega))

/-- Witness for C4: writing the two bytes `[5, 6]` into the cleared 4-byte
buffer succeeds and copies them at the write position. -/
theorem produceBytes_success_spec_witness :
    (0:Int) < bufA.length ∧ (0:Int) ≤ (2:Int) ∧
    List.length [5, 6] = (2:Int).toNat ∧
    ¬ ((TPCircularBufferHead bufA).2.1 < 2 - (TPCircularBufferHead bufA).2.2) ∧
    ((TPCircularBufferProduceBytes bufA [5, 6] 2).2 = true ∧
     (TPCircularBufferProduceBytes bufA [5, 6] 2).1.fillCount = bufA.fillCount + 2 ∧
     (TPCircularBufferProduceBytes bufA [5, 6] 2).1.head = Int.tmod (bufA.head + 2) bufA.length ∧
     (TPCircularBufferProduceBytes bufA [5, 6] 2).1.tail = bufA.tail ∧
     (TPCircularBufferProduceBytes bufA [5, 6] 2).1.length = bufA.length ∧
     (∀ i : Nat, i < (2 - (TPCircularBufferHead bufA).2.2).toNat →
       (TPCircularBufferProduceBytes bufA [5, 6] 2).1.buffer
           (((bufA.head + (TPCircularBufferHead bufA).2.2).toNat + i) % bufA.length.toNat)
         = List.getD [5, 6] ((TPCircularBufferHead bufA).2.2.toNat + i) 0) ∧
     (∀ p : Nat, (∀ i : Nat, i < (2 - (TPCircularBufferHead bufA).2.2).toNat →
         ((bufA.head + (TPCircularBufferHead bufA).2.2).toNat + i) % bufA.length.toNat ≠ p) →
       (TPCircularBufferProduceBytes bufA [5, 6] 2).1.buffer p = bufA.buffer p)) :=
  ⟨by decide, by decide, by decide, by decide,
    produceBytes_success_spec bufA [5, 6] 2 (by decide) (by decide) (by decide) (by decide)⟩

/-- C2 (amended): from an empty quiescent buffer (`fillCount = 0`), writing a
byte sequence of length `N ≤ availableBytes` via the bulk write helper
succeeds, after which the tail accessor reports exactly `N` available bytes,
reading `N` bytes from the read cursor returns the written sequence unchanged,
and consuming `N` empties the buffer again. -/
theorem roundtrip_empty (b : TPCircularBuffer) (data : List Nat)
    (hq : Quiescent b) (hfill : b.fillCount = 0)
    (hN : (data.length : Int) ≤ (TPCircularBufferHead b).2.1) :
    (TPCircularBufferProduceBytes b data (data.length : Int)).2 = true ∧
    (TPCircularBufferTail (TPCircularBufferProduceBytes b data (data.length : Int)).1).2
        = (data.length : Int) ∧
    readBytes (TPCircularBufferProduceBytes b data (data.length : Int)).1.length.toNat
        (TPCircularBufferProduceBytes b data (data.length : Int)).1.buffer
        (TPCircularBufferProduceBytes b data (data.length : Int)).1.tail.toNat
        data.length = data ∧
    (TPCircularBufferConsume (TPCircularBufferProduceBytes b data (data.length : Int)).1
        (data.length : Int)).fillCount = 0 := by
  obtain ⟨hl, hf0, hfl, ht0, htl, hh0, hhl, hinv⟩ := hq
  have havail : (TPCircularBufferHead b).2.1 = b.length := by
    rw [head_avail, if_pos (by omega)]
  have hdisc : (TPCircularBufferHead b).2.2 = 0 := by
    rw [head_discard, if_pos (by omega)]
    omega
  rw [havail] at hN
  have hsp : ¬ ((TPCircularBufferHead b).2.1 <
      (data.length : Int) - (TPCircularBufferHead b).2.2) := by
    rw [havail, hdisc]
    omega
  rw [produceBytes_success_eq b data _ hsp, produce_eq, hdisc]
  simp only [Int.toNat_zero, List.drop_zero, sub_zero, add_zero, Int.toNat_natCast,
    List.take_length]
  rw [hfill, add_zero, Int.emod_eq_of_lt ht0 htl] at hinv
  refine ⟨trivial, ?_, ?_, ?_⟩
  · rw [tail_avail]
    dsimp only
    rw [hfill]
    split_ifs <;> omega
  · dsimp only
    rw [← hinv]
    exact readBytes_memWrite b.length.toNat b.buffer b.head.toNat data (by omega)
  · rw [consume_eq]
    dsimp only
    rw [hfill]
    ring

/-- Witness for amended C2: round trip of `[1, 2, 3]` through the cleared
4-byte buffer. -/
theorem roundtrip_empty_witness :
    Quiescent bufA ∧ bufA.fillCount = 0 ∧
    ((List.length [1, 2, 3] : Int) ≤ (TPCircularBufferHead bufA).2.1) ∧
    ((TPCircularBufferProduceBytes bufA [1, 2, 3] (List.length [1, 2, 3] : Int)).2 = true ∧
     (TPCircularBufferTail
         (TPCircularBufferProduceBytes bufA [1, 2, 3] (List.length [1, 2, 3] : Int)).1).2
       = (List.length [1, 2, 3] : Int) ∧
     readBytes
         (TPCircularBufferProduceBytes bufA [1, 2, 3]
           (List.length [1, 2, 3] : Int)).1.length.toNat
         (TPCircularBufferProduceBytes bufA [1, 2, 3] (List.length [1, 2, 3] : Int)).1.buffer
         (TPCircularBufferProduceBytes bufA [1, 2, 3]
           (List.length [1, 2, 3] : Int)).1.tail.toNat
         (List.length [1, 2, 3]) = [1, 2, 3] ∧
     (TPCircularBufferConsume
         (TPCircularBufferProduceBytes bufA [1, 2, 3] (List.length [1, 2, 3] : Int)).1
         (List.length [1, 2, 3] : Int)).fillCount = 0) :=
  ⟨by decide, by decide, by decide,
    roundtrip_empty bufA [1, 2, 3] (by decide) (by decide) (by decide)⟩

/-- Quiescent 4-byte buffer already holding one unread byte `7` at the read
cursor: `tail = 0`, `head = 1`, `fillCount = 1`, every region byte `7`. -/
def bufC2 : TPCircularBuffer := ⟨fun _ => 7, 4, 0, 1, 1, true⟩

/-- Counterexample to C2 as stated: `bufC2` satisfies the quiescent invariant
and has space for one more byte, yet after a successful bulk write of the one
byte `9`, reading back one byte from the position reported by the tail
accessor yields the pre-existing byte `7`, not the written `9` — with a
nonempty buffer the bytes read back are the older ones, not those just
written. -/
theorem roundtrip_counterexample :
    Quiescent bufC2 ∧
    ((1:Int) ≤ (TPCircularBufferHead bufC2).2.1) ∧
    (TPCircularBufferProduceBytes bufC2 [9] 1).2 = true ∧
    (TPCircularBufferTail (TPCircularBufferProduceBytes bufC2 [9] 1).1).1
        = some (TPCircularBufferProduceBytes bufC2 [9] 1).1.tail ∧
    readBytes (TPCircularBufferProduceBytes bufC2 [9] 1).1.length.toNat
        (TPCircularBufferProduceBytes bufC2 [9] 1).1.buffer
        (TPCircularBufferProduceBytes bufC2 [9] 1).1.tail.toNat 1 = [7] ∧
    ([7] : List Nat) ≠ [9] := by
  refine ⟨by decide, by decide, by decide, by decide, ?_, by decide⟩
  decide
